import Mathlib

/-!
Verification of the recipes CRUD service (gin_chapter_2).

The repository contains three near-duplicate service variants:

* an in-memory variant (global slice `recipes []Recipe`), namespace `Mem`;
* a MongoDB-backed variant (collection of documents), namespace `Db`;
* a MongoDB + Redis-session variant whose handlers package is referenced
  from `main.go` but whose handler code is not part of this tree; its auth
  middleware is modelled from the spec, namespace `Auth`.

Machine state is the stored sequence of recipes (a `List Recipe`); time is a
`Nat` timestamp; identifiers are strings (the Mongo variant validates them as
24-character hex ObjectIDs).  HTTP-level request decoding is abstracted to its
outcome: a body that binds successfully is `some recipe`, a failed bind is
`none`.  Each handler is a pure function from its decoded inputs and the
store's state to an HTTP status, the new state and (for the DB variant) the
list of store-adapter operations it issued.
-/

namespace GinRecipes

/-- The sole domain entity of the service (Go struct `Recipe`):
id, name, tags, ingredients, instructions, publishedAt. -/
structure Recipe where
  id : String
  name : String
  tags : List String
  ingredients : List String
  instructions : List String
  publishedAt : Nat
  deriving DecidableEq, Repr

/-- Operations a handler may issue against the external document store
(the Store Adapter surface of the DB-backed variant). -/
inductive StoreOp where
  | insertOne
  | updateOne
  | deleteOne
  | find
  deriving DecidableEq, Repr

namespace Mem

/-!
In-memory variant (source file with the global `recipes` slice).
State is the slice contents, in insertion order.
-/

/-- `NewRecipeHandler`: bind the JSON body (`none` = bind error → 400);
on success overwrite `ID` with a fresh xid and `PublishedAt` with the
current time, append to the slice and return 200 with the stored record. -/
def NewRecipeHandler (body : Option Recipe) (freshId : String) (now : Nat)
    (recipes : List Recipe) : Nat × List Recipe × Option Recipe :=
  match body with
  | none => (400, recipes, none)
  | some recipe =>
    let stored : Recipe := { recipe with id := freshId, publishedAt := now }
    (200, recipes ++ [stored], some stored)

/-- `ListRecipesHandler`: return 200 with the slice as-is. -/
def ListRecipesHandler (recipes : List Recipe) : Nat × List Recipe :=
  (200, recipes)

/-- The update loop of `UpdateRecipeHandler`: find the first element whose
`ID` equals the path id and replace it wholesale with the bound body
(`recipes[i] = recipe`); `none` when no element matches. -/
def updateFirst (id : String) (recipe : Recipe) : List Recipe → Option (List Recipe)
  | [] => none
  | r :: rest =>
    if r.id = id then some (recipe :: rest)
    else (updateFirst id recipe rest).map (fun l => r :: l)

/-- `UpdateRecipeHandler`: bind the body (failure → 400), then replace the
first slice element whose `ID` matches the path id with the bound body and
return 200; 404 when no element matches. -/
def UpdateRecipeHandler (id : String) (body : Option Recipe)
    (recipes : List Recipe) : Nat × List Recipe :=
  match body with
  | none => (400, recipes)
  | some recipe =>
    match updateFirst id recipe recipes with
    | some recipes' => (200, recipes')
    | none => (404, recipes)

/-- The delete loop of `DeleteRecipeHandler`: remove the first element whose
`ID` equals the path id (`recipes = append(recipes[:i], recipes[i+1:]...)`);
`none` when no element matches. -/
def deleteFirst (id : String) : List Recipe → Option (List Recipe)
  | [] => none
  | r :: rest =>
    if r.id = id then some rest
    else (deleteFirst id rest).map (fun l => r :: l)

/-- `DeleteRecipeHandler`: remove the first slice element whose `ID` matches
the path id and return 200; 404 when no element matches. -/
def DeleteRecipeHandler (id : String) (recipes : List Recipe) :
    Nat × List Recipe :=
  match deleteFirst id recipes with
  | some recipes' => (200, recipes')
  | none => (404, recipes)

/-- `SearchRecipesHandler`: scan the slice; a recipe is appended to the
results once as soon as one of its tags equals the query tag exactly
(the inner loop breaks after the first match); always 200. -/
def SearchRecipesHandler (tag : String) (recipes : List Recipe) :
    Nat × List Recipe :=
  (200, recipes.filter (fun r => r.tags.contains tag))

end Mem

namespace Db

/-!
MongoDB-backed variant (the file whose handlers call `collection....`).
The document store is modelled as a `List Recipe`; every stored document
carries its ObjectID (as its lowercase 24-hex string) in `id`.  Store
failures (`PersistenceError`, the 500 paths) are outside the claims under
verification and are not modelled: every issued store operation succeeds.
-/

/-- A character accepted by `hex.DecodeString` (used by
`primitive.ObjectIDFromHex`). -/
def isHexChar (c : Char) : Bool :=
  (('0' ≤ c && c ≤ '9') || ('a' ≤ c && c ≤ 'f') || ('A' ≤ c && c ≤ 'F'))

/-- Lowercase a hex digit; hex decoding treats `A`–`F` and `a`–`f` alike,
so an ObjectID's canonical hex form is lowercase. -/
def hexCharLower (c : Char) : Char :=
  if 'A' ≤ c && c ≤ 'F' then Char.ofNat (c.toNat + 32) else c

/-- The canonical (lowercase) hex spelling of a hex string. -/
def hexLower (s : String) : String := ⟨s.data.map hexCharLower⟩

/-- `primitive.ObjectIDFromHex`: accepts exactly the 24-character hex
strings and yields the ObjectID (as its canonical lowercase hex spelling,
since hex decoding is case-insensitive); every other string is rejected. -/
def ObjectIDFromHex (s : String) : Option String :=
  if s.length = 24 && s.toList.all isHexChar then some (hexLower s) else none

/-- `collection.UpdateOne` with filter `_id = oid` and a `$set` update `f`:
updates at most one document — the first one matching — and reports the
matched count. -/
def updateOne (oid : String) (f : Recipe → Recipe) :
    List Recipe → List Recipe × Nat
  | [] => ([], 0)
  | r :: rest =>
    if r.id = oid then (f r :: rest, 1)
    else
      let p := updateOne oid f rest
      (r :: p.1, p.2)

/-- `collection.DeleteOne` with filter `_id = oid`: removes at most one
document — the first one matching — and reports the deleted count. -/
def deleteOne (oid : String) : List Recipe → List Recipe × Nat
  | [] => ([], 0)
  | r :: rest =>
    if r.id = oid then (rest, 1)
    else
      let p := deleteOne oid rest
      (r :: p.1, p.2)

/-- `NewRecipeHandler` (DB variant): bind the body (failure → 400,
no store call); on success overwrite `ID` with a fresh ObjectID and
`PublishedAt` with the current time, `InsertOne` the document and
return 201 with the stored record. -/
def NewRecipeHandler (body : Option Recipe) (freshOid : String) (now : Nat)
    (docs : List Recipe) : Nat × List Recipe × List StoreOp × Option Recipe :=
  match body with
  | none => (400, docs, [], none)
  | some recipe =>
    let stored : Recipe := { recipe with id := freshOid, publishedAt := now }
    (201, docs ++ [stored], [StoreOp.insertOne], some stored)

/-- `ListRecipesHandler` (DB variant): `Find` all documents, return 200 with
the decoded list. -/
def ListRecipesHandler (docs : List Recipe) :
    Nat × List Recipe × List StoreOp :=
  (200, docs, [StoreOp.find])

/-- `UpdateRecipeHandler` (DB variant): parse the path id as an ObjectID
(failure → 400, no store call), bind the body (failure → 400, no store
call), then `UpdateOne` with a `$set` of `name`, `instructions`,
`ingredients`, `tags` only, and return 200 unconditionally — the matched
count is ignored, so a filter matching no document still answers 200. -/
def UpdateRecipeHandler (idParam : String) (body : Option Recipe)
    (docs : List Recipe) : Nat × List Recipe × List StoreOp :=
  match ObjectIDFromHex idParam with
  | none => (400, docs, [])
  | some oid =>
    match body with
    | none => (400, docs, [])
    | some recipe =>
      let setFields : Recipe → Recipe := fun r =>
        { r with
          name := recipe.name
          instructions := recipe.instructions
          ingredients := recipe.ingredients
          tags := recipe.tags }
      let p := updateOne oid setFields docs
      (200, p.1, [StoreOp.updateOne])

/-- `DeleteRecipeHandler` (DB variant): parse the path id as an ObjectID
(failure → 400, no store call), `DeleteOne`, then 404 when the deleted
count is zero and 200 otherwise. -/
def DeleteRecipeHandler (idParam : String) (docs : List Recipe) :
    Nat × List Recipe × List StoreOp :=
  match ObjectIDFromHex idParam with
  | none => (400, docs, [])
  | some oid =>
    let p := deleteOne oid docs
    if p.2 = 0 then (404, p.1, [StoreOp.deleteOne])
    else (200, p.1, [StoreOp.deleteOne])

/-- `SearchRecipesHandler` (DB variant): `Find` with filter
`bson.D{"tags": tag}`; on the stored documents (whose `tags` field is an
array) Mongo's filter semantics select exactly the documents whose `tags`
array contains an element equal to `tag`; always 200. -/
def SearchRecipesHandler (tag : String) (docs : List Recipe) :
    Nat × List Recipe × List StoreOp :=
  (200, docs.filter (fun r => r.tags.contains tag), [StoreOp.find])

end Db

namespace Auth

/-- Modelled from the spec: the `handlers` package (its
`AuthHandler.AuthMiddleware`) is referenced from `main.go` but its source is
not part of this tree.  Per the spec, the middleware gate applied to the
protected route group rejects a request carrying no valid session with
HTTP 401 and halts further processing, so the wrapped recipe handler (and
through it the Store Adapter) never runs; with a valid session it passes
control to the next handler. -/
def AuthMiddleware (validSession : Bool)
    (next : List Recipe → Nat × List Recipe × List StoreOp)
    (docs : List Recipe) : Nat × List Recipe × List StoreOp :=
  if validSession then next docs else (401, docs, [])

end Auth

/-! ### Sample records used by concrete witnesses -/

/-- A sample stored recipe (id in ObjectID hex form so both variants accept
it). -/
def pasta : Recipe :=
  ⟨"aaaaaaaaaaaaaaaaaaaaaaaa", "Pasta", ["italian", "dinner"],
    ["noodles"], ["boil"], 5⟩

/-- A sample stored recipe whose tags contain the same tag twice. -/
def cake : Recipe :=
  ⟨"bbbbbbbbbbbbbbbbbbbbbbbb", "Cake", ["dessert", "dessert"],
    ["flour"], ["bake"], 7⟩

/-- A sample client-sent request body carrying its own id and publishedAt. -/
def clientBody : Recipe :=
  ⟨"zzz", "Pasta v2", ["italian"], ["noodles", "salt"], ["boil", "stir"], 0⟩

/-! ### Helper lemmas about the loop bodies -/

lemma Mem.updateFirst_eq_none (id : String) (recipe : Recipe) :
    ∀ l : List Recipe, (∀ r ∈ l, r.id ≠ id) →
      Mem.updateFirst id recipe l = none := by
  intro l
  induction l with
  | nil => intro _; rfl
  | cons r rest ih =>
    intro h
    simp only [Mem.updateFirst]
    rw [if_neg (h r (List.mem_cons_self r rest))]
    rw [ih (fun x hx => h x (List.mem_cons_of_mem r hx))]
    rfl

lemma Mem.updateFirst_of_first (id : String) (recipe : Recipe)
    (r : Recipe) (post : List Recipe) (hr : r.id = id) :
    ∀ pre : List Recipe, (∀ x ∈ pre, x.id ≠ id) →
      Mem.updateFirst id recipe (pre ++ r :: post) =
        some (pre ++ recipe :: post) := by
  intro pre
  induction pre with
  | nil =>
    intro _
    simp only [List.nil_append, Mem.updateFirst, if_pos hr]
  | cons x rest ih =>
    intro h
    simp only [List.cons_append, Mem.updateFirst, List.append_eq]
    rw [if_neg (h x (List.mem_cons_self x rest))]
    rw [ih (fun y hy => h y (List.mem_cons_of_mem x hy))]
    rfl

lemma Mem.deleteFirst_eq_none (id : String) :
    ∀ l : List Recipe, (∀ r ∈ l, r.id ≠ id) →
      Mem.deleteFirst id l = none := by
  intro l
  induction l with
  | nil => intro _; rfl
  | cons r rest ih =>
    intro h
    simp only [Mem.deleteFirst]
    rw [if_neg (h r (List.mem_cons_self r rest))]
    rw [ih (fun x hx => h x (List.mem_cons_of_mem r hx))]
    rfl

lemma Mem.deleteFirst_of_first (id : String) (r : Recipe)
    (post : List Recipe) (hr : r.id = id) :
    ∀ pre : List Recipe, (∀ x ∈ pre, x.id ≠ id) →
      Mem.deleteFirst id (pre ++ r :: post) = some (pre ++ post) := by
  intro pre
  induction pre with
  | nil =>
    intro _
    simp only [List.nil_append, Mem.deleteFirst, if_pos hr]
  | cons x rest ih =>
    intro h
    simp only [List.cons_append, Mem.deleteFirst, List.append_eq]
    rw [if_neg (h x (List.mem_cons_self x rest))]
    rw [ih (fun y hy => h y (List.mem_cons_of_mem x hy))]
    rfl

lemma Db.updateOne_eq_self (oid : String) (f : Recipe → Recipe) :
    ∀ docs : List Recipe, (∀ r ∈ docs, r.id ≠ oid) →
      Db.updateOne oid f docs = (docs, 0) := by
  intro docs
  induction docs with
  | nil => intro _; rfl
  | cons r rest ih =>
    intro h
    simp only [Db.updateOne]
    rw [if_neg (h r (List.mem_cons_self r rest))]
    rw [ih (fun x hx => h x (List.mem_cons_of_mem r hx))]

lemma Db.updateOne_of_first (oid : String) (f : Recipe → Recipe)
    (r : Recipe) (post : List Recipe) (hr : r.id = oid) :
    ∀ pre : List Recipe, (∀ x ∈ pre, x.id ≠ oid) →
      Db.updateOne oid f (pre ++ r :: post) = (pre ++ f r :: post, 1) := by
  intro pre
  induction pre with
  | nil =>
    intro _
    simp only [List.nil_append, Db.updateOne, if_pos hr]
  | cons x rest ih =>
    intro h
    simp only [List.cons_append, Db.updateOne, List.append_eq]
    rw [if_neg (h x (List.mem_cons_self x rest))]
    rw [ih (fun y hy => h y (List.mem_cons_of_mem x hy))]

lemma Db.deleteOne_eq_self (oid : String) :
    ∀ docs : List Recipe, (∀ r ∈ docs, r.id ≠ oid) →
      Db.deleteOne oid docs = (docs, 0) := by
  intro docs
  induction docs with
  | nil => intro _; rfl
  | cons r rest ih =>
    intro h
    simp only [Db.deleteOne]
    rw [if_neg (h r (List.mem_cons_self r rest))]
    rw [ih (fun x hx => h x (List.mem_cons_of_mem r hx))]

lemma Db.deleteOne_of_first (oid : String) (r : Recipe)
    (post : List Recipe) (hr : r.id = oid) :
    ∀ pre : List Recipe, (∀ x ∈ pre, x.id ≠ oid) →
      Db.deleteOne oid (pre ++ r :: post) = (pre ++ post, 1) := by
  intro pre
  induction pre with
  | nil =>
    intro _
    simp only [List.nil_append, Db.deleteOne, if_pos hr]
  | cons x rest ih =>
    intro h
    simp only [List.cons_append, Db.deleteOne, List.append_eq]
    rw [if_neg (h x (List.mem_cons_self x rest))]
    rw [ih (fun y hy => h y (List.mem_cons_of_mem x hy))]

/-- The id/publishedAt projection of every document survives an
`updateOne` whose update function preserves those two fields. -/
lemma Db.updateOne_map_id_publishedAt (oid : String) (f : Recipe → Recipe)
    (hf : ∀ r, (f r).id = r.id ∧ (f r).publishedAt = r.publishedAt) :
    ∀ docs : List Recipe,
      ((Db.updateOne oid f docs).1).map (fun r => (r.id, r.publishedAt)) =
        docs.map (fun r => (r.id, r.publishedAt)) := by
  intro docs
  induction docs with
  | nil => rfl
  | cons r rest ih =>
    simp only [Db.updateOne]
    by_cases h : r.id = oid
    · rw [if_pos h]
      simp only [List.map_cons, (hf r).1, (hf r).2]
    · rw [if_neg h]
      simp only [List.map_cons, ih]

lemma contains_eq_decide_mem (tag : String) (l : List String) :
    l.contains tag = decide (tag ∈ l) := by
  rw [List.contains, List.elem_eq_mem]

/-! ### Claim theorems -/

/-- C3: for every store state and tag, search-by-tag answers 200 with
exactly the stored recipes whose `tags` contains an element equal (by exact
string equality) to the tag — in both the in-memory and the DB-backed
variant — and when no stored recipe matches, the result is the empty
sequence, not an error. -/
theorem search_by_tag_exact (tag : String) (st : List Recipe) :
    (Mem.SearchRecipesHandler tag st).1 = 200 ∧
    (Mem.SearchRecipesHandler tag st).2 =
      st.filter (fun r => decide (tag ∈ r.tags)) ∧
    (Db.SearchRecipesHandler tag st).1 = 200 ∧
    (Db.SearchRecipesHandler tag st).2.1 =
      st.filter (fun r => decide (tag ∈ r.tags)) ∧
    ((∀ r ∈ st, tag ∉ r.tags) →
      (Mem.SearchRecipesHandler tag st).2 = [] ∧
      (Db.SearchRecipesHandler tag st).2.1 = []) := by
  have hfilter :
      st.filter (fun r => r.tags.contains tag) =
        st.filter (fun r => decide (tag ∈ r.tags)) :=
    List.filter_congr (fun r _ => contains_eq_decide_mem tag r.tags)
  refine ⟨rfl, hfilter, rfl, hfilter, fun hnone => ?_⟩
  have hnil : st.filter (fun r => decide (tag ∈ r.tags)) = [] := by
    rw [List.filter_eq_nil_iff]
    intro r hr
    simpa using hnone r hr
  exact ⟨hfilter.trans hnil, hfilter.trans hnil⟩

/-- C3 witness: a concrete store with one recipe and a tag matching nothing:
both variants answer the empty sequence. -/
theorem search_by_tag_exact_witness :
    (∀ r ∈ [pasta], "dessert" ∉ r.tags) ∧
    (Mem.SearchRecipesHandler "dessert" [pasta]).2 = [] ∧
    (Db.SearchRecipesHandler "dessert" [pasta]).2.1 = [] :=
  ⟨by decide, (search_by_tag_exact "dessert" [pasta]).2.2.2.2 (by decide)⟩

/-- C8: in the in-memory variant, list reproduces the stored slice exactly,
and every successful create appends the stored record at the end, so list
returns the recipes in insertion order. -/
theorem mem_list_insertion_order (st : List Recipe) (recipe : Recipe)
    (freshId : String) (now : Nat) :
    Mem.ListRecipesHandler st = (200, st) ∧
    (Mem.NewRecipeHandler (some recipe) freshId now st).2.1 =
      st ++ [{ recipe with id := freshId, publishedAt := now }] :=
  ⟨rfl, rfl⟩

/-- C9: in the in-memory variant, search-by-tag includes each stored recipe
at most once: the result counts no recipe more often than the store does,
and a recipe stored once whose tags contain the searched tag (possibly
several times) appears exactly once in the result. -/
theorem mem_search_no_duplicates (tag : String) (st : List Recipe)
    (r : Recipe) :
    ((Mem.SearchRecipesHandler tag st).2).count r ≤ st.count r ∧
    (st.count r = 1 → tag ∈ r.tags →
      ((Mem.SearchRecipesHandler tag st).2).count r = 1) := by
  constructor
  · exact (List.filter_sublist st).count_le r
  · intro h1 h2
    have hp : r.tags.contains tag = true := by
      rw [contains_eq_decide_mem]
      simpa using h2
    calc ((Mem.SearchRecipesHandler tag st).2).count r
        = st.count r := List.count_filter hp
      _ = 1 := h1

/-- C9 witness: a store holding one recipe whose tags contain "dessert"
twice; the search result contains that recipe exactly once. -/
theorem mem_search_no_duplicates_witness :
    ([cake].count cake = 1 ∧ "dessert" ∈ cake.tags) ∧
    ((Mem.SearchRecipesHandler "dessert" [cake]).2).count cake = 1 :=
  ⟨by decide, (mem_search_no_duplicates "dessert" [cake] cake).2
    (by decide) (by decide)⟩

/-- C10: in the in-memory variant, delete removes at most one record per
call: when the store is `pre ++ r :: post` with `r` the first record whose
id matches, the call answers 200 and the new store is `pre ++ post` — every
later record, matching id or not, remains. -/
theorem mem_delete_removes_first_match_only (id : String) (r : Recipe)
    (pre post : List Recipe) (hr : r.id = id)
    (hpre : ∀ x ∈ pre, x.id ≠ id) :
    Mem.DeleteRecipeHandler id (pre ++ r :: post) = (200, pre ++ post) := by
  simp only [Mem.DeleteRecipeHandler,
    Mem.deleteFirst_of_first id r post hr pre hpre]

/-- C10 witness: two stored records sharing an id; deleting that id removes
only the first and the later duplicate remains. -/
theorem mem_delete_removes_first_match_only_witness :
    Mem.DeleteRecipeHandler "bbbbbbbbbbbbbbbbbbbbbbbb" [cake, cake] =
      (200, [cake]) := by
  have h := mem_delete_removes_first_match_only "bbbbbbbbbbbbbbbbbbbbbbbb"
    cake [] [cake] (by decide) (by simp)
  simpa using h

/-- C4: delete answers 404 when no stored recipe carries the given id and
removes exactly the first matching record (answering 200) when one exists —
in the in-memory variant for any id string, in the DB-backed variant for any
id that parses as an ObjectID. -/
theorem delete_notfound_or_removes_one :
    (∀ (id : String) (st : List Recipe), (∀ r ∈ st, r.id ≠ id) →
      Mem.DeleteRecipeHandler id st = (404, st)) ∧
    (∀ (id : String) (r : Recipe) (pre post : List Recipe),
      r.id = id → (∀ x ∈ pre, x.id ≠ id) →
      Mem.DeleteRecipeHandler id (pre ++ r :: post) = (200, pre ++ post)) ∧
    (∀ (idParam oid : String) (docs : List Recipe),
      Db.ObjectIDFromHex idParam = some oid → (∀ r ∈ docs, r.id ≠ oid) →
      Db.DeleteRecipeHandler idParam docs =
        (404, docs, [StoreOp.deleteOne])) ∧
    (∀ (idParam oid : String) (r : Recipe) (pre post : List Recipe),
      Db.ObjectIDFromHex idParam = some oid → r.id = oid →
      (∀ x ∈ pre, x.id ≠ oid) →
      Db.DeleteRecipeHandler idParam (pre ++ r :: post) =
        (200, pre ++ post, [StoreOp.deleteOne])) := by
  refine ⟨?_, ?_, ?_, ?_⟩
  · intro id st h
    simp only [Mem.DeleteRecipeHandler, Mem.deleteFirst_eq_none id st h]
  · intro id r pre post hr hpre
    simp only [Mem.DeleteRecipeHandler,
      Mem.deleteFirst_of_first id r post hr pre hpre]
  · intro idParam oid docs hparse h
    simp only [Db.DeleteRecipeHandler, hparse,
      Db.deleteOne_eq_self oid docs h]
    simp
  · intro idParam oid r pre post hparse hr hpre
    simp only [Db.DeleteRecipeHandler, hparse,
      Db.deleteOne_of_first oid r post hr pre hpre]
    simp

/-- C4 witness: concrete runs of all four cases — 404 on a missing id with
the store untouched, and removal of exactly the matching record on a hit. -/
theorem delete_notfound_or_removes_one_witness :
    Mem.DeleteRecipeHandler "nope" [pasta] = (404, [pasta]) ∧
    Mem.DeleteRecipeHandler "aaaaaaaaaaaaaaaaaaaaaaaa" [pasta, cake] =
      (200, [cake]) ∧
    Db.DeleteRecipeHandler "cccccccccccccccccccccccc" [pasta] =
      (404, [pasta], [StoreOp.deleteOne]) ∧
    Db.DeleteRecipeHandler "aaaaaaaaaaaaaaaaaaaaaaaa" [pasta, cake] =
      (200, [cake], [StoreOp.deleteOne]) := by
  have h := delete_notfound_or_removes_one
  refine ⟨h.1 "nope" [pasta] (by decide), ?_, ?_, ?_⟩
  · have := h.2.1 "aaaaaaaaaaaaaaaaaaaaaaaa" pasta [] [cake]
      (by decide) (by simp)
    simpa using this
  · exact h.2.2.1 "cccccccccccccccccccccccc" "cccccccccccccccccccccccc"
      [pasta] (by decide) (by decide)
  · have := h.2.2.2 "aaaaaaaaaaaaaaaaaaaaaaaa" "aaaaaaaaaaaaaaaaaaaaaaaa"
      pasta [] [cake] (by decide) (by decide) (by simp)
    simpa using this

/-- C2 counterexample: in the in-memory variant a successful (200) update
replaces the matched record wholesale with the client-sent body, so the
stored record's id and publishedAt change to whatever the client sent. -/
theorem mem_update_overwrites_id_and_publishedAt :
    Mem.UpdateRecipeHandler "aaaaaaaaaaaaaaaaaaaaaaaa" (some clientBody)
        [pasta] = (200, [clientBody]) ∧
    clientBody.id ≠ pasta.id ∧
    clientBody.publishedAt ≠ pasta.publishedAt := by decide

/-- C2 (amended): in the DB-backed variant a successful update replaces only
name, instructions, ingredients and tags of the matched document and leaves
every stored document's id and publishedAt unchanged; in the in-memory
variant a successful update replaces the matched record wholesale with the
client-sent body, id and publishedAt included. -/
theorem update_field_frame :
    (∀ (idParam : String) (recipe : Recipe) (docs : List Recipe),
      ((Db.UpdateRecipeHandler idParam (some recipe) docs).2.1).map
          (fun r => (r.id, r.publishedAt)) =
        docs.map (fun r => (r.id, r.publishedAt))) ∧
    (∀ (idParam oid : String) (recipe r : Recipe) (pre post : List Recipe),
      Db.ObjectIDFromHex idParam = some oid → r.id = oid →
      (∀ x ∈ pre, x.id ≠ oid) →
      Db.UpdateRecipeHandler idParam (some recipe) (pre ++ r :: post) =
        (200,
         pre ++ { r with
            name := recipe.name
            instructions := recipe.instructions
            ingredients := recipe.ingredients
            tags := recipe.tags } :: post,
         [StoreOp.updateOne])) ∧
    (∀ (id : String) (recipe r : Recipe) (pre post : List Recipe),
      r.id = id → (∀ x ∈ pre, x.id ≠ id) →
      Mem.UpdateRecipeHandler id (some recipe) (pre ++ r :: post) =
        (200, pre ++ recipe :: post)) := by
  refine ⟨?_, ?_, ?_⟩
  · intro idParam recipe docs
    cases hparse : Db.ObjectIDFromHex idParam with
    | none => simp only [Db.UpdateRecipeHandler, hparse]
    | some oid =>
      simp only [Db.UpdateRecipeHandler, hparse]
      exact Db.updateOne_map_id_publishedAt oid
        (fun r =>
          { r with
            name := recipe.name
            instructions := recipe.instructions
            ingredients := recipe.ingredients
            tags := recipe.tags })
        (fun r => ⟨rfl, rfl⟩) docs
  · intro idParam oid recipe r pre post hparse hr hpre
    simp only [Db.UpdateRecipeHandler, hparse,
      Db.updateOne_of_first oid _ r post hr pre hpre]
  · intro id recipe r pre post hr hpre
    simp only [Mem.UpdateRecipeHandler,
      Mem.updateFirst_of_first id recipe r post hr pre hpre]

/-- C2 witness: a concrete successful update in each variant — the DB
variant keeps the stored id and publishedAt and takes the client's four
mutable fields; the in-memory variant stores the client body itself. -/
theorem update_field_frame_witness :
    Db.UpdateRecipeHandler "aaaaaaaaaaaaaaaaaaaaaaaa" (some clientBody)
        [pasta] =
      (200,
       [⟨pasta.id, clientBody.name, clientBody.tags, clientBody.ingredients,
         clientBody.instructions, pasta.publishedAt⟩],
       [StoreOp.updateOne]) ∧
    Mem.UpdateRecipeHandler "aaaaaaaaaaaaaaaaaaaaaaaa" (some clientBody)
        [pasta] = (200, [clientBody]) := by
  have h := update_field_frame
  constructor
  · have := h.2.1 "aaaaaaaaaaaaaaaaaaaaaaaa" "aaaaaaaaaaaaaaaaaaaaaaaa"
      clientBody pasta [] [] (by decide) (by decide) (by simp)
    simpa using this
  · have := h.2.2 "aaaaaaaaaaaaaaaaaaaaaaaa" clientBody pasta [] []
      (by decide) (by simp)
    simpa using this

/-- C1: evaluating the DB-variant update handler at a well-formed ObjectID
that matches no stored document: it answers 200 — the matched count of
`UpdateOne` is ignored — instead of the 404 the claim (and the handler's own
swagger documentation) requires; no record is created either way. -/
theorem db_update_missing_id_answers_200 :
    Db.UpdateRecipeHandler "cccccccccccccccccccccccc" (some clientBody)
        [pasta] = (200, [pasta], [StoreOp.updateOne]) ∧
    (200 : Nat) ≠ 404 := by decide

/-- C5: create overwrites whatever id and publishedAt the client sent with
the freshly generated id and the current time, appends the record, and
returns it; under the generator's contract (the fresh id is non-empty and
distinct from every stored one) the stored id is non-empty and fresh, and
with a clock that has not gone backwards since the call started the stored
publishedAt is no earlier than the call's start.  Holds in both variants
(the in-memory one answers 200, the DB-backed one 201). -/
theorem create_assigns_fresh_id_and_timestamp (recipe : Recipe)
    (freshId : String) (now callStart : Nat) (st : List Recipe)
    (hfresh : freshId ∉ st.map Recipe.id) (hne : freshId ≠ "")
    (hclock : callStart ≤ now) :
    Mem.NewRecipeHandler (some recipe) freshId now st =
      (200, st ++ [{ recipe with id := freshId, publishedAt := now }],
       some { recipe with id := freshId, publishedAt := now }) ∧
    Db.NewRecipeHandler (some recipe) freshId now st =
      (201, st ++ [{ recipe with id := freshId, publishedAt := now }],
       [StoreOp.insertOne],
       some { recipe with id := freshId, publishedAt := now }) ∧
    ({ recipe with id := freshId, publishedAt := now } : Recipe).id ≠ "" ∧
    ({ recipe with id := freshId, publishedAt := now } : Recipe).id ∉
      st.map Recipe.id ∧
    callStart ≤
      ({ recipe with id := freshId, publishedAt := now } : Recipe).publishedAt ∧
    (∀ (cid : String) (cpub : Nat),
      Mem.NewRecipeHandler
          (some { recipe with id := cid, publishedAt := cpub })
          freshId now st =
        Mem.NewRecipeHandler (some recipe) freshId now st ∧
      Db.NewRecipeHandler
          (some { recipe with id := cid, publishedAt := cpub })
          freshId now st =
        Db.NewRecipeHandler (some recipe) freshId now st) :=
  ⟨rfl, rfl, hne, hfresh, hclock, fun _ _ => ⟨rfl, rfl⟩⟩

/-- C5 witness: a concrete create over a one-record store, with a fresh
generated id and the clock at 10 after a call start at 9. -/
theorem create_assigns_fresh_id_and_timestamp_witness :
    Mem.NewRecipeHandler (some clientBody) "cccccccccccccccccccccccc" 10
        [pasta] =
      (200,
       [pasta, ⟨"cccccccccccccccccccccccc", clientBody.name, clientBody.tags,
         clientBody.ingredients, clientBody.instructions, 10⟩],
       some ⟨"cccccccccccccccccccccccc", clientBody.name, clientBody.tags,
         clientBody.ingredients, clientBody.instructions, 10⟩) := by
  have h := create_assigns_fresh_id_and_timestamp clientBody
    "cccccccccccccccccccccccc" 10 9 [pasta] (by decide) (by decide)
    (by decide)
  simpa using h.1

/-- C6: a request whose body fails to bind against the Recipe shape, or
whose path id is not a well-formed ObjectID (DB variant), is answered 400
with the store untouched and no store-adapter operation issued. -/
theorem invalid_input_rejected_before_store :
    (∀ (freshId : String) (now : Nat) (st : List Recipe),
      Mem.NewRecipeHandler none freshId now st = (400, st, none)) ∧
    (∀ (id : String) (st : List Recipe),
      Mem.UpdateRecipeHandler id none st = (400, st)) ∧
    (∀ (freshOid : String) (now : Nat) (docs : List Recipe),
      Db.NewRecipeHandler none freshOid now docs = (400, docs, [], none)) ∧
    (∀ (idParam : String) (docs : List Recipe),
      Db.UpdateRecipeHandler idParam none docs = (400, docs, [])) ∧
    (∀ (idParam : String) (body : Option Recipe) (docs : List Recipe),
      Db.ObjectIDFromHex idParam = none →
      Db.UpdateRecipeHandler idParam body docs = (400, docs, [])) ∧
    (∀ (idParam : String) (docs : List Recipe),
      Db.ObjectIDFromHex idParam = none →
      Db.DeleteRecipeHandler idParam docs = (400, docs, [])) := by
  refine ⟨fun _ _ _ => rfl, fun _ _ => rfl, fun _ _ _ => rfl, ?_, ?_, ?_⟩
  · intro idParam docs
    cases hparse : Db.ObjectIDFromHex idParam with
    | none => simp only [Db.UpdateRecipeHandler, hparse]
    | some oid => simp only [Db.UpdateRecipeHandler, hparse]
  · intro idParam body docs hparse
    simp only [Db.UpdateRecipeHandler, hparse]
  · intro idParam docs hparse
    simp only [Db.DeleteRecipeHandler, hparse]

/-- C6 witness: a path id that is not 24 hex characters is answered 400 by
the DB-variant update and delete handlers, with no store operation, even
when the body is well-formed. -/
theorem invalid_input_rejected_before_store_witness :
    Db.ObjectIDFromHex "nope" = none ∧
    Db.UpdateRecipeHandler "nope" (some clientBody) [pasta] =
      (400, [pasta], []) ∧
    Db.DeleteRecipeHandler "nope" [pasta] = (400, [pasta], []) :=
  ⟨by decide,
   (invalid_input_rejected_before_store).2.2.2.2.1 "nope" (some clientBody)
     [pasta] (by decide),
   (invalid_input_rejected_before_store).2.2.2.2.2 "nope" [pasta]
     (by decide)⟩

/-- C7: the auth middleware guarding the recipe route group answers 401 to
a request carrying no valid session, leaves the store untouched, issues no
store-adapter operation, and never runs the wrapped recipe handler — the
outcome is the same whatever handler the route maps to. -/
theorem auth_gate_blocks_without_session
    (next : List Recipe → Nat × List Recipe × List StoreOp)
    (docs : List Recipe) :
    Auth.AuthMiddleware false next docs = (401, docs, []) ∧
    Auth.AuthMiddleware false next docs =
      Auth.AuthMiddleware false Db.ListRecipesHandler docs :=
  ⟨rfl, rfl⟩

end GinRecipes
